import Mathlib

/-!
Shallow embedding of the core of the awk-language-server repository:
the per-document symbol store (`AWKDocument` in src/unnamed/part_000 and
src/server/src/awkdocument.ts), the symbol taxonomy (src/server/src/symbols.ts),
the position-to-usage lookup (`findSymbolForPosition` in src/server/src/server.ts),
the `formal_parameters` grammar action and the built-in symbol table of the
parser source (src/unnamed/part_000), and the cross-document function checker
`AWKDocument.checkFunctionCalls`.

JavaScript numbers are modelled as `Int` (all arithmetic in the embedded code
stays far below 2^53, so no overflow modelling is needed); JS `undefined` is
modelled as `Option.none`; JS arrays are Lean lists appended at the end by
`push`; a JS object used as a string-keyed dictionary is an association list in
insertion order, because `for ... in` iterates string keys in insertion order.

The files util.ts (`transitiveClosure`, `EMap`) and path.ts (`positionCompare`)
are not under src/; they are modelled from the spec and marked as such below.
-/

/-- Position in a text document: 0-based line and character, as in the
vscode-languageserver `Position` interface used throughout the source. -/
structure Pos where
  line : Int
  character : Int
deriving DecidableEq, Repr

/-- Range in a text document (vscode-languageserver `Range`); the source field
`end` is a Lean keyword and is called `stop` here. -/
structure RangeP where
  start : Pos
  stop : Pos
deriving DecidableEq, Repr

/-- Modelled from the spec: `positionCompare` lives in path.ts, which is not
under src/. The spec orders positions "by ascending (line, column)", so the
comparison is lexicographic: line difference when the lines differ, character
difference otherwise (negative / zero / positive result, as the source's
callers use it as a three-way comparator). -/
def positionCompare (a b : Pos) : Int :=
  if a.line ≠ b.line then a.line - b.line else a.character - b.character

/-- Diagnostic severities of the vscode-languageserver `DiagnosticSeverity`
enumeration (Error = 1, Warning = 2, ...). -/
def DiagnosticSeverity.Warning : Int := 2

/-- Diagnostic (vscode-languageserver): severity is optional because
`Diagnostic.create(range, message)` leaves it undefined. -/
structure Diagnostic where
  severity : Option Int
  range : RangeP
  message : String
deriving DecidableEq, Repr

/-- Diagnostic.create(range, message) of vscode-languageserver: severity is
left undefined. -/
def Diagnostic.create (range : RangeP) (message : String) : Diagnostic :=
  { severity := none, range := range, message := message }

/- ===== src/server/src/symbols.ts ===== -/

/-- positionOffset from symbols.ts. -/
def positionOffset (position : Pos) (nrChars : Int) : Pos :=
  { line := position.line, character := position.character + nrChars }

/-- getRange from symbols.ts. -/
def getRange (position : Pos) (nrChars : Int) : RangeP :=
  { start := position, stop := positionOffset position nrChars }

/-- SymbolType enumeration of symbols.ts, in declaration order (the TS enum
assigns ordinals 0..7 in this order). -/
inductive SymbolType where
  | func
  | globalVariable
  | localVariable
  | parameter
  | defineFunc
  | defineGlobalVariable
  | defineLocalVariable
  | defineParameter
deriving DecidableEq, Repr

/-- Numeric value the TS enum assigns to each SymbolType member. -/
def SymbolType.toNat : SymbolType → Nat
  | .func => 0
  | .globalVariable => 1
  | .localVariable => 2
  | .parameter => 3
  | .defineFunc => 4
  | .defineGlobalVariable => 5
  | .defineLocalVariable => 6
  | .defineParameter => 7

/-- getSymbolDefineType from symbols.ts: the switch lists func, localVariable,
globalVariable and parameter; any other value falls through to `return t`. -/
def getSymbolDefineType (t : SymbolType) : SymbolType :=
  match t with
  | .func => .defineFunc
  | .localVariable => .defineLocalVariable
  | .globalVariable => .defineGlobalVariable
  | .parameter => .defineParameter
  | _ => t

/-- removeSymbolDefineType from symbols.ts: the switch lists only defineFunc,
defineLocalVariable and defineParameter (there is no case for
defineGlobalVariable in this version of the file); any other value falls
through to `return t`. -/
def removeSymbolDefineType (t : SymbolType) : SymbolType :=
  match t with
  | .defineFunc => .func
  | .defineLocalVariable => .localVariable
  | .defineParameter => .parameter
  | _ => t

/-- isSymbolDefineType from symbols.ts: `t >= SymbolType.defineFunc`, a numeric
comparison on the enum ordinals. -/
def isSymbolDefineType (t : SymbolType) : Bool :=
  t.toNat ≥ SymbolType.defineFunc.toNat

/-- SymbolDefinition of symbols.ts. The `document` back-reference is modelled
by the owning document's URI (the object identity of an AWKDocument is its
URI); `scope`, `parameters` and `localVariables` make this an inductive type.
The hover-only field `docComment` is kept; `getSymbolDefinitions` and friends
never look inside it. -/
inductive SymbolDefinition : Type where
  | mk
      (document : String)
      (position : Pos)
      (type : SymbolType)
      (docComment : String)
      (scope : Option SymbolDefinition)
      (symbol : String)
      (isImplicitDefinition : Bool)
      (parameters : List SymbolDefinition)
      (localVariables : List SymbolDefinition)

def SymbolDefinition.position : SymbolDefinition → Pos
  | .mk _ p _ _ _ _ _ _ _ => p

def SymbolDefinition.type : SymbolDefinition → SymbolType
  | .mk _ _ t _ _ _ _ _ _ => t

def SymbolDefinition.symbol : SymbolDefinition → String
  | .mk _ _ _ _ _ s _ _ _ => s

def SymbolDefinition.parameters : SymbolDefinition → List SymbolDefinition
  | .mk _ _ _ _ _ _ _ ps _ => ps

/-- SymbolDefinition.getRange from symbols.ts: `getRange(this.position,
this.symbol.length)` (the free `getRange`, written out here because the method
shares its name). The TS guard `this.symbol === undefined? 10:
this.symbol.length` is dead code under the declared type (`symbol: string`),
so the length branch is taken. -/
def SymbolDefinition.getRange (d : SymbolDefinition) : RangeP :=
  { start := d.position, stop := positionOffset d.position d.symbol.length }

/-- SymbolUsage of symbols.ts. -/
structure SymbolUsage where
  symbol : String
  type : SymbolType
  position : Pos
deriving DecidableEq, Repr

/-- SymbolUsage.getRange from symbols.ts: `getRange(this.position,
this.symbol.length)`, written out as in SymbolDefinition.getRange (same dead
undefined-guard there). -/
def SymbolUsage.getRange (u : SymbolUsage) : RangeP :=
  { start := u.position, stop := positionOffset u.position u.symbol.length }

/-- ParameterUsage of symbols.ts. -/
structure ParameterUsage where
  functionName : SymbolUsage
  parameterIndex : Int
  position : Pos
  start : Bool
deriving DecidableEq, Repr

/- ===== formal_parameters and addParameter (grammar source, src/unnamed/part_000
   lines 1288-1307 and 631-643) ===== -/

/-- State of the `formal_parameters` grammar rule together with the effect of
`addParameter` on the current function definition: `parameters` and
`localVariables` collect the names `addParameter` pushes onto
`globalFunctionName.parameters` / `.localVariables` (the rule only runs inside
a function definition, so `globalFunctionName !== undefined` holds). -/
structure FormalParamsState where
  isParameter : Bool
  paramNr : Int
  parameters : List String
  localVariables : List String
deriving DecidableEq, Repr

/-- One identifier of the formal parameter list. The input pair is
(ignoreBuffer, lastSymbol): the raw ignored text (spaces, tabs, comments,
escaped line ends) the scanner skipped immediately before the identifier
token, and the identifier itself. The condition is copied from the
formal_parameters rule:
`(paramNr > 0 && (ignoreBuffer.length > 1 || (ignoreBuffer.length === 1 && ignoreBuffer.charAt(0) !== " "))) || (paramNr === 0 && ignoreBuffer.length !== 0)`
sets isParameter to false; then `addParameter(lastSymbol, isParameter)` and
`paramNr++`. -/
def formalParamsStep (st : FormalParamsState) (p : String × String) : FormalParamsState :=
  let ignoreBuffer := p.1
  let lastSymbol := p.2
  let isParameter :=
    if (st.paramNr > 0 ∧ (ignoreBuffer.length > 1 ∨
          (ignoreBuffer.length = 1 ∧ ignoreBuffer.front ≠ ' '))) ∨
       (st.paramNr = 0 ∧ ignoreBuffer.length ≠ 0)
    then false
    else st.isParameter
  { isParameter := isParameter,
    paramNr := st.paramNr + 1,
    parameters := if isParameter then st.parameters ++ [lastSymbol] else st.parameters,
    localVariables := if isParameter then st.localVariables else st.localVariables ++ [lastSymbol] }

/-- formal_parameters: the rule starts with `isParameter = true; paramNr = 0`
and folds the step over the identifiers of the declaration list in source
order. -/
def formal_parameters (ps : List (String × String)) : FormalParamsState :=
  ps.foldl formalParamsStep ⟨true, 0, [], []⟩

/- ===== Built-in symbol table (src/unnamed/part_000, `builtInSymbols`) ===== -/

/-- BuiltInFunction of the parser source. The hover-only prose fields
`description` and `returns` are omitted; they are never read by the analysis
code embedded here. -/
structure BuiltInFunction where
  name : String
  parameters : Option (List String)
  firstOptional : Option Int
  maxNrArguments : Option Int
  awk : Bool
deriving DecidableEq, Repr

/-- Number.MAX_SAFE_INTEGER. -/
def maxSafeInteger : Int := 9007199254740991

/-- Shorthand constructor used to transcribe the builtInSymbols table. -/
def mkBif (name : String) (parameters : Option (List String))
    (firstOptional maxNrArguments : Option Int) (awk : Bool) : BuiltInFunction :=
  { name := name, parameters := parameters, firstOptional := firstOptional,
    maxNrArguments := maxNrArguments, awk := awk }

/-- builtInSymbols of the parser source, in declaration order, keyed by name
(JS object keys iterate in insertion order). Entries with no `parameters`
field are the built-in variables (ARGC .. TEXTDOMAIN). -/
def builtInSymbols : List (String × BuiltInFunction) := [
  ("atan2", mkBif "atan2" (some ["y", " x"]) none none false),
  ("cos", mkBif "cos" (some ["x"]) none none false),
  ("exp", mkBif "exp" (some ["x"]) none none false),
  ("int", mkBif "int" (some ["x"]) none none true),
  ("log", mkBif "log" (some ["x"]) none none false),
  ("rand", mkBif "rand" (some []) none none true),
  ("sin", mkBif "sin" (some ["x"]) none none true),
  ("sqrt", mkBif "sqrt" (some ["x"]) none none false),
  ("srand", mkBif "srand" (some ["x"]) (some 0) none false),
  ("asort", mkBif "asort" (some ["source", " dest", " how"]) (some 1) none false),
  ("asorti", mkBif "asorti" (some ["source", " dest", " how"]) (some 1) none false),
  ("gensub", mkBif "gensub" (some ["regexp", " replacement", " how", " target"]) (some 3) none false),
  ("getline", mkBif "getline" (some []) (some 0) none true),
  ("gsub", mkBif "gsub" (some ["regexp", " replacement", " target"]) (some 2) none true),
  ("index", mkBif "index" (some ["in", " find"]) none none true),
  ("length", mkBif "length" (some ["string"]) (some 0) none true),
  ("match", mkBif "match" (some ["string", " regexp", " array"]) (some 2) none true),
  ("patsplit", mkBif "patsplit" (some ["string", " array", " fieldpat", " seps"]) (some 2) none false),
  ("split", mkBif "split" (some ["string", " array", " fieldsep", " seps"]) (some 2) none true),
  ("print", mkBif "print" (some ["expression"]) (some 0) (some maxSafeInteger) true),
  ("printf", mkBif "printf" (some ["format", " expression1", " ..."]) (some 1) (some maxSafeInteger) true),
  ("sprintf", mkBif "sprintf" (some ["format", " expression1", " ..."]) (some 1) (some maxSafeInteger) true),
  ("strtonum", mkBif "strtonum" (some ["str"]) none none false),
  ("sub", mkBif "sub" (some ["regexp", " replacement", " target"]) (some 2) none true),
  ("substr", mkBif "substr" (some ["string", " start", " length"]) (some 2) none true),
  ("tolower", mkBif "tolower" (some ["string"]) none none true),
  ("toupper", mkBif "toupper" (some ["string"]) none none true),
  ("close", mkBif "close" (some ["filename", " how"]) (some 1) none false),
  ("fflush", mkBif "fflush" (some ["filename"]) (some 0) none false),
  ("system", mkBif "system" (some ["command"]) none none true),
  ("exit", mkBif "exit" (some ["status"]) (some 0) none true),
  ("mktime", mkBif "mktime" (some ["datespec"]) none none false),
  ("systime", mkBif "systime" (some []) none none false),
  ("strftime", mkBif "strftime" (some ["format", "timestamp", "utc-flag"]) none none false),
  ("and", mkBif "and" (some ["v1", " v2", " ..."]) (some 2) none false),
  ("compl", mkBif "compl" (some ["val"]) none none false),
  ("lshift", mkBif "lshift" (some ["val", " count"]) none none false),
  ("or", mkBif "or" (some ["v1", " v2", " ..."]) (some 2) none false),
  ("rshift", mkBif "rshift" (some ["val", " count"]) none none false),
  ("xor", mkBif "xor" (some ["v1", " v2", " ..."]) (some 2) none false),
  ("isarray", mkBif "isarray" (some ["x"]) none none false),
  ("bindtextdomain", mkBif "bindtextdomain" (some ["directory", " domain"]) (some 1) none false),
  ("dcgettext", mkBif "dcgettext" (some ["string", " domain", " category"]) (some 2) none false),
  ("dcngettext", mkBif "dcngettext" (some ["string1", " string2", " number", " domain", " category"]) (some 3) none false),
  ("ARGC", mkBif "ARGC" none none none true),
  ("ARGIND", mkBif "ARGIND" none none none true),
  ("ARGV", mkBif "ARGV" none none none true),
  ("BINMODE", mkBif "BINMODE" none none none false),
  ("CONVFMT", mkBif "CONVFMT" none none none false),
  ("ENVIRON", mkBif "ENVIRON" none none none true),
  ("ERRNO", mkBif "ERRNO" none none none false),
  ("FIELDWIDTHS", mkBif "FIELDWIDTHS" none none none false),
  ("FILENAME", mkBif "FILENAME" none none none true),
  ("FNR", mkBif "FNR" none none none true),
  ("FPAT", mkBif "FPAT" none none none false),
  ("FS", mkBif "FS" none none none true),
  ("FUNCTAB", mkBif "FUNCTAB" none none none false),
  ("IGNORECASE", mkBif "IGNORECASE" none none none false),
  ("LINT", mkBif "LINT" none none none false),
  ("NF", mkBif "NF" none none none true),
  ("NR", mkBif "NR" none none none true),
  ("OFMT", mkBif "OFMT" none none none false),
  ("OFS", mkBif "OFS" none none none true),
  ("ORS", mkBif "ORS" none none none false),
  ("PREC", mkBif "PREC" none none none false),
  ("PROCINFO", mkBif "PROCINFO" none none none false),
  ("ROUNDMODE", mkBif "ROUNDMODE" none none none false),
  ("RS", mkBif "RS" none none none false),
  ("RT", mkBif "RT" none none none false),
  ("RSTART", mkBif "RSTART" none none none true),
  ("RLENGTH", mkBif "RLENGTH" none none none true),
  ("SUBSEP", mkBif "SUBSEP" none none none true),
  ("SYMTAB", mkBif "SYMTAB" none none none false),
  ("TEXTDOMAIN", mkBif "TEXTDOMAIN" none none none false)]

/-- Membership test `name in builtInSymbols` of the source. -/
def builtInHas (name : String) : Bool :=
  (builtInSymbols.find? (fun p => p.1 == name)).isSome

/-- Lookup `builtInSymbols[name]`. -/
def builtInLookup (name : String) : Option BuiltInFunction :=
  (builtInSymbols.find? (fun p => p.1 == name)).map (·.2)

/- ===== JS object used as a string-to-number dictionary
   (the numberOfParameters maps) ===== -/

/-- Key membership `k in o` of a JS object modelled as an association list in
insertion order. -/
def objHas (o : List (String × Int)) (k : String) : Bool :=
  (o.find? (fun p => p.1 == k)).isSome

/-- Property read `o[k]` at a key the source has already tested with `in`
(absent keys never reach a read in the embedded code). -/
def objGetD (o : List (String × Int)) (k : String) : Int :=
  ((o.find? (fun p => p.1 == k)).map (·.2)).getD 0

/-- Property write `o[k] = v`: overwrites in place when the key exists,
appends (preserving for-in insertion order) when it does not. -/
def objSet (o : List (String × Int)) (k : String) (v : Int) : List (String × Int) :=
  if objHas o k then o.map (fun p => if p.1 == k then (p.1, v) else p)
  else o ++ [(k, v)]

/- ===== AWKDocument (src/unnamed/part_000) ===== -/

/-- IncludeDeclarationInfo of the document source: the textual range of the
include directive. -/
structure IncludeDeclarationInfo where
  range : RangeP
deriving DecidableEq, Repr

/-- AWKDocument of src/unnamed/part_000. A per-type symbol table slot is
`Option (String → Option (List SymbolDefinition))`: the outer Option is the
possibly-undefined array slot `definedSymbols[type]`, the inner function is
the `Map` with `has`/`get`/`set` (the map is never iterated, so insertion
order does not matter for it). The `EMap<AWKDocument, ...>` include relations
are keyed by the partner document's URI, its identity. The `positionTree`
field (path.ts) is outside src/ and outside every claim and is omitted. -/
structure AWKDocument where
  uri : String
  definedSymbols : SymbolType → Option (String → Option (List SymbolDefinition))
  usedSymbols : List SymbolUsage
  includedBy : List (String × IncludeDeclarationInfo)
  includes : List (String × IncludeDeclarationInfo)
  parseDiagnostics : List Diagnostic
  analysisDiagnostics : List Diagnostic
  errorsChanged : Bool
  functionCallStack : List SymbolUsage
  parameterUsage : List ParameterUsage
  numberOfParameters : List (String × Int)
  oldNumberOfParameters : Option (List (String × Int))

/-- AWKDocument.init of src/unnamed/part_000: resets the parse-derived fields;
the previous numberOfParameters map is saved into oldNumberOfParameters only
when the latter is still undefined. -/
def AWKDocument.init (this : AWKDocument) : AWKDocument :=
  { this with
    definedSymbols := fun _ => none,
    usedSymbols := [],
    functionCallStack := [],
    parameterUsage := [],
    includes := [],
    oldNumberOfParameters :=
      (match this.oldNumberOfParameters with
       | none => some this.numberOfParameters
       | some o => some o),
    numberOfParameters := [] }

/-- Document as built by `new AWKDocument(uri)`: all fields at their
initializers, then `init()`. -/
def AWKDocument.new (uri : String) : AWKDocument :=
  AWKDocument.init
    { uri := uri,
      definedSymbols := fun _ => none,
      usedSymbols := [],
      includedBy := [],
      includes := [],
      parseDiagnostics := [],
      analysisDiagnostics := [],
      errorsChanged := false,
      functionCallStack := [],
      parameterUsage := [],
      numberOfParameters := [],
      oldNumberOfParameters := none }

/-- AWKDocument.addSymbolDefinition of src/unnamed/part_000 (the copy in
src/server/src/awkdocument.ts is identical except that it returns void):
create the per-type map when the array slot is undefined, create an empty
entry when the key is new, then push the definition onto the entry's list. -/
def AWKDocument.addSymbolDefinition (this : AWKDocument) (symbol : String)
    (symbolDefinition : SymbolDefinition) : AWKDocument :=
  let map0 := match this.definedSymbols symbolDefinition.type with
    | none => fun _ => none
    | some m => m
  let map1 := if (map0 symbol).isSome then map0 else Function.update map0 symbol (some [])
  let map2 := Function.update map1 symbol (some (((map1 symbol).getD []) ++ [symbolDefinition]))
  { this with definedSymbols :=
      Function.update this.definedSymbols symbolDefinition.type (some map2) }

/-- AWKDocument.getSymbolDefinitions: undefined when the per-type slot is
undefined, otherwise `map.get(symbol)`. -/
def AWKDocument.getSymbolDefinitions (this : AWKDocument) (symbol : String)
    (type : SymbolType) : Option (List SymbolDefinition) :=
  match this.definedSymbols type with
  | none => none
  | some map => map symbol

/-- AWKDocument.isSymbolDefined: `map !== undefined && map.has(symbol)`. -/
def AWKDocument.isSymbolDefined (this : AWKDocument) (symbol : String)
    (type : SymbolType) : Bool :=
  match this.definedSymbols type with
  | none => false
  | some map => (map symbol).isSome

/-- AWKDocument.addSymbolUsage. -/
def AWKDocument.addSymbolUsage (this : AWKDocument) (usage : SymbolUsage) : AWKDocument :=
  { this with usedSymbols := this.usedSymbols ++ [usage] }

/-- AWKDocument.addParseDiagnostic: push only when the list is empty or the
start position of the immediately preceding diagnostic differs. -/
def AWKDocument.addParseDiagnostic (this : AWKDocument) (d : Diagnostic) : AWKDocument :=
  match this.parseDiagnostics.getLast? with
  | none =>
      { this with parseDiagnostics := this.parseDiagnostics ++ [d], errorsChanged := true }
  | some last =>
      if positionCompare last.range.start d.range.start ≠ 0 then
        { this with parseDiagnostics := this.parseDiagnostics ++ [d], errorsChanged := true }
      else this

/-- AWKDocument.resetParseDiagnostics. -/
def AWKDocument.resetParseDiagnostics (this : AWKDocument) : AWKDocument :=
  { this with errorsChanged := true, parseDiagnostics := [] }

/-- AWKDocument.addAnalysisDiagnostic: always pushes. -/
def AWKDocument.addAnalysisDiagnostic (this : AWKDocument) (d : Diagnostic) : AWKDocument :=
  { this with analysisDiagnostics := this.analysisDiagnostics ++ [d], errorsChanged := true }

/-- AWKDocument.resetAnalysisDiagnostics: marks a change only when the list
was non-empty, then empties it. -/
def AWKDocument.resetAnalysisDiagnostics (this : AWKDocument) : AWKDocument :=
  { this with
    errorsChanged := if this.analysisDiagnostics ≠ [] then true else this.errorsChanged,
    analysisDiagnostics := [] }

instance : Inhabited SymbolUsage := ⟨⟨"", SymbolType.func, ⟨0, 0⟩⟩⟩

/-- AWKDocument.registerFunctionCall: at a call start, push the most recently
added usage (the callee, which the grammar emits immediately before) onto the
call stack; at the end, pop it and record the closing boundary with parameter
index -1. The source's non-null assertion on the popped value is modelled by
the Inhabited default (the parser brackets calls, so the stack is non-empty
there). -/
def AWKDocument.registerFunctionCall (this : AWKDocument) (start : Bool)
    (position : Pos) : AWKDocument :=
  if start then
    { this with functionCallStack :=
        this.functionCallStack ++ [this.usedSymbols.getLast!] }
  else
    let funcCallSym := this.functionCallStack.getLast!
    { this with
      functionCallStack := this.functionCallStack.dropLast,
      parameterUsage := this.parameterUsage ++
        [⟨funcCallSym, -1, position, start⟩] }

/-- AWKDocument.registerFunctionCallParameter: records a parameter boundary
against the innermost in-flight call (top of the call stack). -/
def AWKDocument.registerFunctionCallParameter (this : AWKDocument)
    (parameterIndex : Int) (start : Bool) (line : Int) (position : Int) : AWKDocument :=
  { this with parameterUsage := this.parameterUsage ++
      [⟨this.functionCallStack.getLast!, parameterIndex, ⟨line, position⟩, start⟩] }

/-- AWKDocument.registerNumberOfParameters: `numberOfParameters[fn.symbol] =
fn.parameters.length`. -/
def AWKDocument.registerNumberOfParameters (this : AWKDocument)
    (fn : SymbolDefinition) : AWKDocument :=
  { this with
    numberOfParameters := objSet this.numberOfParameters fn.symbol fn.parameters.length }

/- ===== Include closure and checkFunctionCalls ===== -/

/-- Modelled from the spec: `transitiveClosure(set, f)` lives in util.ts,
which is not under src/. The spec describes it as "implement transitive
closure with an explicit visited-set guard (arena of document identifiers)":
each already-collected element is expanded through `next` and unseen
successors are appended, a document already visited is not re-expanded. One
expansion sweep over the current snapshot: -/
def transitiveClosureStep (next : String → List String) (s : List String) : List String :=
  s.foldl (fun acc d =>
    (next d).foldl (fun acc2 e => if e ∈ acc2 then acc2 else acc2 ++ [e]) acc) s

/-- Modelled from the spec: sweeps are repeated `fuel` times;
`checkFunctionCalls` passes the registry size, which bounds the number of
sweeps needed to reach the closure (every sweep short of the fixed point adds
at least one new registry document, and ids outside the registry have no
successors). -/
def transitiveClosure (fuel : Nat) (next : String → List String)
    (s : List String) : List String :=
  match fuel with
  | 0 => s
  | fuel + 1 => transitiveClosure fuel next (transitiveClosureStep next s)

/-- Keys of the includes relation (the EMap iterates its keys, here the
included documents' URIs). -/
def AWKDocument.includesKeys (this : AWKDocument) : List String :=
  this.includes.map (·.1)

/-- Global document registry lookup (the server's documentMap, URI to
document). -/
def lookupDoc (docs : List (String × AWKDocument)) (id : String) : Option AWKDocument :=
  (docs.find? (fun p => p.1 == id)).map (·.2)

/-- The `includedDocs` set of checkFunctionCalls: seeded with
`this.includes.keys()` and closed under each included document's own
includes. Documents missing from the registry contribute no successors. -/
def includedClosure (docs : List (String × AWKDocument))
    (this : AWKDocument) : List String :=
  transitiveClosure docs.length
    (fun id => (lookupDoc docs id).elim [] AWKDocument.includesKeys)
    this.includesKeys

/-- Message of the duplicate-declaration diagnostic. The source writes it as a
DOUBLE-quoted string, so the template placeholder is not interpolated: the
message is this fixed literal for every document (the braces and backticks are
escaped here only for quoting reasons; the string value is the source's
verbatim text). -/
def dupMsg : String := "already defined in \x60$\x7binclDoc.uri\x7d\x60"

/-- Body of the inner merge loop of checkFunctionCalls, for one (funName,
nrParamFun) entry of an included document's function map: fold the entry into
the combined map; a function declared both in this document and in an include
gets an analysis diagnostic on this document's own (first) declaration of it.
The threaded state is the combined map together with the document
accumulating diagnostics; `this.numberOfParameters` read by the inner test is
`d`'s own field, never modified by the loop. -/
def mergeFunEntry (st : List (String × Int) × AWKDocument)
    (fp : String × Int) : List (String × Int) × AWKDocument :=
  let numberOfParameters := st.1
  let d := st.2
  let funName := fp.1
  let nrParamFun := fp.2
  if objHas numberOfParameters funName then
    if objHas d.numberOfParameters funName then
      -- funDef !== undefined && funDef.length > 0
      match d.getSymbolDefinitions funName SymbolType.func with
      | some (fd :: _) =>
          (numberOfParameters,
           d.addAnalysisDiagnostic (Diagnostic.create fd.getRange dupMsg))
      | _ => st
    else st
  else (objSet numberOfParameters funName nrParamFun, d)

/-- The merge loop of checkFunctionCalls: for every document of the include
closure, fold its function-to-parameter-count map into the combined map via
`mergeFunEntry`. -/
def mergeIncluded (docs : List (String × AWKDocument)) (includedDocs : List String)
    (st : List (String × Int) × AWKDocument) : List (String × Int) × AWKDocument :=
  includedDocs.foldl (fun st inclId =>
    match lookupDoc docs inclId with
    | none => st
    | some inclDoc => inclDoc.numberOfParameters.foldl mergeFunEntry st) st

/-- getNrParametersRange (local function of checkFunctionCalls): a locally or
transitively declared function has an exact count; a built-in has a range
derived from its parameter list, firstOptional and maxNrArguments; anything
else gets the unconstrained range [-1, MAX_SAFE_INTEGER]. -/
def getNrParametersRange (numberOfParameters : List (String × Int))
    (fnName : String) : Int × Int :=
  if objHas numberOfParameters fnName then
    (objGetD numberOfParameters fnName, objGetD numberOfParameters fnName)
  else
    match builtInLookup fnName with
    | some bf =>
      (match bf.parameters with
       | none => (-1, maxSafeInteger)
       | some ps =>
         let max := match bf.maxNrArguments with
           | some m => m
           | none => (ps.length : Int)
         match bf.firstOptional with
         | some fo => (fo, max)
         | none => (max, max))
    | none => (-1, maxSafeInteger)

/-- AWKDocument.checkFunctionExistence: a callee neither in the combined map
nor a built-in gets an "undeclared function" analysis diagnostic at its own
range. -/
def AWKDocument.checkFunctionExistence (this : AWKDocument) (fn : SymbolUsage)
    (numberOfParameters : List (String × Int)) : AWKDocument :=
  if ¬ objHas numberOfParameters fn.symbol ∧ ¬ builtInHas fn.symbol then
    this.addAnalysisDiagnostic (Diagnostic.create fn.getRange "undeclared function")
  else this

/-- One parameter-usage event of the replay loop of checkFunctionCalls. The
two stacks are lists with the top at the head (the source pushes and pops at
the array end and addresses `stack[stack.length - 1]`). A pop on an empty
stack cannot occur on parser-generated streams (calls are bracketed); the
model leaves the state unchanged there. -/
def replayStep (numberOfParameters : List (String × Int))
    (st : List (Int × Int) × List Int × AWKDocument)
    (param : ParameterUsage) : List (Int × Int) × List Int × AWKDocument :=
  let nrParamRangeStack := st.1
  let nrParametersStack := st.2.1
  let d := st.2.2
  if param.start then
    let pushed :=
      if param.parameterIndex ≤ 0 then
        -- First parameter of function call
        (getNrParametersRange numberOfParameters param.functionName.symbol :: nrParamRangeStack,
         (0 : Int) :: nrParametersStack,
         d.checkFunctionExistence param.functionName numberOfParameters)
      else (nrParamRangeStack, nrParametersStack, d)
    -- nrParametersStack[nrParametersStack.length - 1] = param.parameterIndex + 1
    (pushed.1,
     (match pushed.2.1 with
      | [] => []
      | _ :: t => (param.parameterIndex + 1) :: t),
     pushed.2.2)
  else
    if param.parameterIndex = -1 then
      -- Closing function call
      match nrParamRangeStack, nrParametersStack with
      | (minNrParams, maxNrParams) :: rs, nrParameters :: cs =>
        if nrParameters < minNrParams then
          (rs, cs, d.addAnalysisDiagnostic
            (Diagnostic.create param.functionName.getRange "not enough arguments"))
        else if nrParameters > maxNrParams then
          (rs, cs, d.addAnalysisDiagnostic
            (Diagnostic.create param.functionName.getRange "too many arguments"))
        else (rs, cs, d)
      | _, _ => (nrParamRangeStack, nrParametersStack, d)
    else (nrParamRangeStack, nrParametersStack, d)

/-- AWKDocument.checkFunctionCalls (src/unnamed/part_000 lines 364-452):
compute the include closure, clear the analysis diagnostics, merge the
included documents' function maps (flagging duplicates), and, unless the
document recorded no parameter-usage events, replay the event stream as a
stack machine checking existence and arity of every call. -/
def AWKDocument.checkFunctionCalls (docs : List (String × AWKDocument))
    (this : AWKDocument) : AWKDocument :=
  let includedDocs := includedClosure docs this
  let numberOfParameters0 := this.numberOfParameters
  let d0 := this.resetAnalysisDiagnostics
  let merged := mergeIncluded docs includedDocs (numberOfParameters0, d0)
  let numberOfParameters := merged.1
  let d1 := merged.2
  if d1.parameterUsage = [] then d1
  else (d1.parameterUsage.foldl (replayStep numberOfParameters) ([], [], d1)).2.2

/- ===== findSymbolForPosition (src/server/src/server.ts lines 351-399) ===== -/

/-- compare of findSymbolForPosition's binsearch: line difference when the
lines differ; a zero-length symbol matches only at its exact start column;
otherwise -1 when the queried column lies beyond start + length, 1 when it
lies before the start, 0 in between (both ends included). -/
def compareUsagePos (a : SymbolUsage) (b : Pos) : Int :=
  if a.position.line ≠ b.line then a.position.line - b.line
  else if b.character = a.position.character ∧ a.symbol.length = 0 then 0
  else if b.character > a.position.character + a.symbol.length then -1
  else if b.character < a.position.character then 1
  else 0

/-- Loop of binsearch. The JS while-loop is modelled with a fuel parameter;
each iteration strictly shrinks the interval [f, t], so `arr.length + 1` fuel
(supplied by `binsearch`) always suffices and the fuel-exhausted branch is
unreachable. Indexing out of range yields `none`, which also covers the
source's initial `from > to` early return for an empty array. -/
def binsearchGo (arr : List SymbolUsage) (val : Pos) :
    Nat → Int → Int → Option SymbolUsage
  | 0, _, _ => none
  | fuel + 1, f, t =>
    if f < t then
      let i : Int := (t + f) / 2
      match arr[i.toNat]? with
      | none => none
      | some a =>
        let res := compareUsagePos a val
        if res < 0 then binsearchGo arr val fuel (i + 1) t
        else if res > 0 then binsearchGo arr val fuel f (i - 1)
        else some a
    else
      match arr[f.toNat]? with
      | none => none
      | some a => if compareUsagePos a val = 0 then some a else none

/-- binsearch of findSymbolForPosition: search `arr` (the position-ordered
usage list) for the usage whose character span contains `val`. -/
def binsearch (arr : List SymbolUsage) (val : Pos) : Option SymbolUsage :=
  binsearchGo arr val (arr.length + 1) 0 ((arr.length : Int) - 1)

/-- findSymbolForPosition of server.ts: look the document up in the registry,
binary-search its usage list for the queried position, and translate a
definition-flavored usage back to its use type. -/
def findSymbolForPosition (documentMap : List (String × AWKDocument))
    (docURI : String) (pos : Pos) : Option SymbolUsage :=
  match lookupDoc documentMap docURI with
  | none => none
  | some doc =>
    match binsearch doc.usedSymbols pos with
    | some usage =>
      if isSymbolDefineType usage.type then
        some ⟨usage.symbol, removeSymbolDefineType usage.type, usage.position⟩
      else some usage
    | none => none

/- ===== Derived definitions and concrete instances used by the claims ===== -/

/-- The combined function-to-parameter-count map checkFunctionCalls builds for
a document: its own map merged with those of its transitive includes (the
first component of the merge loop's final state). -/
def availableFunctions (docs : List (String × AWKDocument))
    (this : AWKDocument) : List (String × Int) :=
  (mergeIncluded docs (includedClosure docs this)
    (this.numberOfParameters, this.resetAnalysisDiagnostics)).1

/-- Predicate picking out the "undeclared function" diagnostics. -/
def isUndeclMsg (dg : Diagnostic) : Bool :=
  dg.message == "undeclared function"

/-- A call-opening boundary event (start with parameterIndex at most 0) whose
callee is neither in the combined map nor a built-in. -/
def isUndeclaredOpening (numberOfParameters : List (String × Int))
    (e : ParameterUsage) : Bool :=
  e.start && decide (e.parameterIndex ≤ 0) &&
    (!objHas numberOfParameters e.functionName.symbol && !builtInHas e.functionName.symbol)

/-- The diagnostic checkFunctionExistence emits for the callee of an
undeclared call. -/
def undeclDiag (e : ParameterUsage) : Diagnostic :=
  Diagnostic.create e.functionName.getRange "undeclared function"

/-- Parameter-usage events the parser records for one non-indirect call of
`fn` with `n` actual parameters: `actual_parameters` emits
`parameterFun(i, true/false)` around the i-th parameter expression and
`parameterFun(-1, true)` for an empty parameter list, and the closing
`functionCallFun(false)` makes registerFunctionCall append the index -1 end
event. Event positions never influence the checker's decisions and are fixed
at the origin. -/
def callEvents (fn : SymbolUsage) (n : Nat) : List ParameterUsage :=
  (if n = 0 then [⟨fn, -1, ⟨0, 0⟩, true⟩]
   else (List.range n).foldr
     (fun i acc => ⟨fn, (i : Int), ⟨0, 0⟩, true⟩ :: ⟨fn, (i : Int), ⟨0, 0⟩, false⟩ :: acc) [])
  ++ [⟨fn, -1, ⟨0, 0⟩, false⟩]

/-- A function declaration `function fname(a, b)`: two parameters, no local
variables; registering it stores parameter count 2. -/
def twoParamFnDef (fname : String) : SymbolDefinition :=
  .mk "file:///doc.awk" ⟨0, 9⟩ .func "" none fname false
    [.mk "file:///doc.awk" ⟨0, 11⟩ .parameter "" none "a" false [] [],
     .mk "file:///doc.awk" ⟨0, 14⟩ .parameter "" none "b" false [] []]
    []

/-- A freshly opened document that declares `fname` with the two parameters
[a, b] and records one call of `fname` (at usage position q) with n
arguments. -/
def singleCallDoc (fname : String) (q : Pos) (n : Nat) : AWKDocument :=
  { (AWKDocument.new "file:///doc.awk").registerNumberOfParameters (twoParamFnDef fname) with
    parameterUsage := callEvents ⟨fname, SymbolType.func, q⟩ n }

/-- A zero-length usage at (4,5), the 3-character identifier of the claim at
(4,10), and a following 2-character usage at (4,20). -/
def usageZero : SymbolUsage := ⟨"", SymbolType.globalVariable, ⟨4, 5⟩⟩

def usageAbc : SymbolUsage := ⟨"abc", SymbolType.globalVariable, ⟨4, 10⟩⟩

def usageXy : SymbolUsage := ⟨"xy", SymbolType.globalVariable, ⟨4, 20⟩⟩

/-- A position-ordered usage list around the claim's 3-character identifier. -/
def lookupUsages : List SymbolUsage := [usageZero, usageAbc, usageXy]

/-- Document A of the two-document include cycle: A includes B. -/
def cycleDocA : AWKDocument :=
  { AWKDocument.new "file:///a.awk" with
    includes := [("file:///b.awk", ⟨⟨⟨0, 0⟩, ⟨0, 16⟩⟩⟩)] }

/-- Document B of the two-document include cycle: B includes A. -/
def cycleDocB : AWKDocument :=
  { AWKDocument.new "file:///b.awk" with
    includes := [("file:///a.awk", ⟨⟨⟨0, 0⟩, ⟨0, 16⟩⟩⟩)] }

/-- Registry holding the two mutually-including documents. -/
def cycleRegistry : List (String × AWKDocument) :=
  [("file:///a.awk", cycleDocA), ("file:///b.awk", cycleDocB)]

/-- Declaration of function f used by the no-calls duplicate example. -/
def dupFnDef : SymbolDefinition :=
  .mk "file:///a.awk" ⟨1, 9⟩ .func "" none "f" false
    [.mk "file:///a.awk" ⟨1, 11⟩ .parameter "" none "x" false [] []] []

/-- Document that declares f (one parameter), includes b.awk, and records no
calls at all. -/
def noCallsDocA : AWKDocument :=
  ({ AWKDocument.new "file:///a.awk" with
     includes := [("file:///b.awk", ⟨⟨⟨0, 0⟩, ⟨0, 16⟩⟩⟩)],
     numberOfParameters := [("f", 1)] }).addSymbolDefinition "f" dupFnDef

/-- Included document that also declares f. -/
def noCallsDocB : AWKDocument :=
  { AWKDocument.new "file:///b.awk" with numberOfParameters := [("f", 1)] }

/-- Registry for the no-calls duplicate example. -/
def noCallsRegistry : List (String × AWKDocument) :=
  [("file:///a.awk", noCallsDocA), ("file:///b.awk", noCallsDocB)]

/-- Invariant of the per-type symbol tables: every name present as a key maps
to a non-empty definition list. -/
def DefinedSymbolsInv (d : AWKDocument) : Prop :=
  ∀ t m, d.definedSymbols t = some m → ∀ s l, m s = some l → l ≠ []

/- ===== Helper lemmas ===== -/

/-- The closure of an empty seed is empty, whatever the fuel. -/
theorem transitiveClosure_nil (fuel : Nat) (next : String → List String) :
    transitiveClosure fuel next [] = [] := by
  induction fuel with
  | zero => rfl
  | succ n ih => simpa [transitiveClosure, transitiveClosureStep] using ih

/-- The spec-modelled position comparison is zero exactly on equal positions. -/
theorem positionCompare_eq_zero_iff (a b : Pos) : positionCompare a b = 0 ↔ a = b := by
  cases a with
  | mk al ac =>
    cases b with
    | mk bl bc =>
      simp only [positionCompare, Pos.mk.injEq]
      split_ifs with h
      · constructor
        · intro h0
          exact absurd (by omega : al = bl) (by simpa using h)
        · rintro ⟨h1, _⟩
          exact absurd h1 (by simpa using h)
      · constructor
        · intro h0
          exact ⟨by simpa using h, by omega⟩
        · rintro ⟨_, h1⟩
          omega

/-- Once the formal-parameter scan has switched to the local-variable segment,
it stays there: every further name goes to the local variables. -/
theorem formalParams_sticky (ps : List (String × String)) :
    ∀ st : FormalParamsState, st.isParameter = false →
      (ps.foldl formalParamsStep st).isParameter = false ∧
      (ps.foldl formalParamsStep st).parameters = st.parameters ∧
      (ps.foldl formalParamsStep st).localVariables = st.localVariables ++ ps.map (·.2) := by
  induction ps with
  | nil => intro st hst; simpa using hst
  | cons p ps ih =>
    intro st hst
    have hstep : (formalParamsStep st p).isParameter = false ∧
        (formalParamsStep st p).parameters = st.parameters ∧
        (formalParamsStep st p).localVariables = st.localVariables ++ [p.2] := by
      simp [formalParamsStep, hst]
    obtain ⟨h1, h2, h3⟩ := ih (formalParamsStep st p) hstep.1
    refine ⟨h1, ?_, ?_⟩
    · rw [List.foldl_cons, h2, hstep.2.1]
    · rw [List.foldl_cons, h3, hstep.2.2, List.map_cons]
      simp

/-- Non-empty strings have non-zero length. -/
theorem String.length_ne_zero_of_ne_empty (s : String) (h : s ≠ "") : s.length ≠ 0 := by
  obtain ⟨l⟩ := s
  cases l with
  | nil => exact absurd rfl h
  | cons c cs => simp [String.length]

/- ===== Claim theorems ===== -/

/-- C1: evaluating the include closure that checkFunctionCalls computes on the
two-document cycle (A includes B, B includes A). The computation terminates,
but A's closure is {B, A}: it contains A itself, contradicting the claim (and
the source's own comment "includedDocs does not contain this"); symmetrically
for B. -/
theorem claim_C1_cycle_closure_contains_self :
    includedClosure cycleRegistry cycleDocA = ["file:///b.awk", "file:///a.awk"]
    ∧ "file:///a.awk" ∈ includedClosure cycleRegistry cycleDocA
    ∧ includedClosure cycleRegistry cycleDocB = ["file:///a.awk", "file:///b.awk"]
    ∧ "file:///b.awk" ∈ includedClosure cycleRegistry cycleDocB := by
  refine ⟨by decide, by decide, by decide, by decide⟩

/-- C4 counterexample: the claim says a query at column 13 (= start 10 +
length 3) does not return the identifier, but binsearch does return it: the
span check treats the right end as inside. -/
theorem claim_C4_counterexample :
    binsearch [usageAbc] ⟨4, 13⟩ = some usageAbc := by decide

/-- C5: evaluating the define-type round trip at the failing input. For
globalVariable, getSymbolDefineType yields defineGlobalVariable, but
removeSymbolDefineType maps defineGlobalVariable to itself (its switch has no
case for it), so the round trip is not the identity on use types. -/
theorem claim_C5_globalVariable_roundtrip_fails :
    getSymbolDefineType SymbolType.globalVariable = SymbolType.defineGlobalVariable
    ∧ removeSymbolDefineType SymbolType.defineGlobalVariable = SymbolType.defineGlobalVariable
    ∧ removeSymbolDefineType (getSymbolDefineType SymbolType.globalVariable)
        ≠ SymbolType.globalVariable
    ∧ isSymbolDefineType SymbolType.defineGlobalVariable = true := by decide

/-- C6: in a function declaration, one space after the comma keeps the name a
parameter, while two spaces (or a newline in the ignored text) start the
local-variable segment: `function f(a, b)` yields parameters [a, b]:
`function f(a,  b)` yields parameter [a] and local variable [b]. -/
theorem claim_C6_param_vs_local_segment :
    ((formal_parameters [("", "a"), (" ", "b")]).parameters = ["a", "b"]
      ∧ (formal_parameters [("", "a"), (" ", "b")]).localVariables = [])
    ∧ ((formal_parameters [("", "a"), ("  ", "b")]).parameters = ["a"]
      ∧ (formal_parameters [("", "a"), ("  ", "b")]).localVariables = ["b"])
    ∧ ((formal_parameters [("", "a"), ("\n", "b")]).parameters = ["a"]
      ∧ (formal_parameters [("", "a"), ("\n", "b")]).localVariables = ["b"]) := by
  decide

/-- C7: addParseDiagnostic appends exactly when the parse-diagnostics list is
empty or the new diagnostic's start position differs from the start position
of the immediately preceding diagnostic (and leaves the list unchanged
otherwise); addAnalysisDiagnostic always appends. -/
theorem claim_C7_parse_dedup_analysis_append (d : AWKDocument) (dg : Diagnostic) :
    ((d.addParseDiagnostic dg).parseDiagnostics =
      match d.parseDiagnostics.getLast? with
      | none => d.parseDiagnostics ++ [dg]
      | some last =>
          if last.range.start = dg.range.start then d.parseDiagnostics
          else d.parseDiagnostics ++ [dg])
    ∧ (d.addAnalysisDiagnostic dg).analysisDiagnostics = d.analysisDiagnostics ++ [dg] := by
  constructor
  · cases h : d.parseDiagnostics.getLast? with
    | none => simp [AWKDocument.addParseDiagnostic, h]
    | some last =>
      simp only [AWKDocument.addParseDiagnostic, h]
      by_cases he : last.range.start = dg.range.start
      · have h0 : ¬ (positionCompare last.range.start dg.range.start ≠ 0) := by
          simp [(positionCompare_eq_zero_iff _ _).mpr he]
        rw [if_neg h0, if_pos he]
      · have h0 : positionCompare last.range.start dg.range.start ≠ 0 := fun hc =>
          he ((positionCompare_eq_zero_iff _ _).mp hc)
        rw [if_pos h0, if_neg he]
  · simp [AWKDocument.addAnalysisDiagnostic]

/-- C9: any ignored text at all before the first listed name (here a single
space, or any non-empty ignore buffer) makes it and all following names local
variables, so the parameter list is empty; for names after the first, one
single space after the comma still yields a parameter. -/
theorem claim_C9_first_param_spacing (ib ident : String)
    (rest : List (String × String)) (h : ib ≠ "") :
    (formal_parameters ((ib, ident) :: rest)).parameters = []
    ∧ (formal_parameters ((ib, ident) :: rest)).localVariables = ident :: rest.map (·.2)
    ∧ ∀ a b : String, (formal_parameters [("", a), (" ", b)]).parameters = [a, b] := by
  have hlen : ib.length ≠ 0 := String.length_ne_zero_of_ne_empty ib h
  have hfirst : formalParamsStep ⟨true, 0, [], []⟩ (ib, ident) =
      ⟨false, 1, [], [ident]⟩ := by
    simp [formalParamsStep, hlen]
  have hs := formalParams_sticky rest ⟨false, 1, [], [ident]⟩ rfl
  refine ⟨?_, ?_, ?_⟩
  · rw [formal_parameters, List.foldl_cons, hfirst]
    exact hs.2.1
  · rw [formal_parameters, List.foldl_cons, hfirst]
    simpa using hs.2.2
  · intro a b
    simp only [formal_parameters, List.foldl_cons, List.foldl_nil, formalParamsStep]
    norm_num
    decide

/-- C9 witness: instantiating the spacing theorem at a single-space ignore
buffer before the first (and only) declared name. -/
theorem claim_C9_first_param_spacing_witness :
    (formal_parameters [(" ", "x")]).parameters = []
    ∧ (formal_parameters [(" ", "x")]).localVariables = ["x"] := by
  have h := claim_C9_first_param_spacing " " "x" [] (by decide)
  exact ⟨h.1, by simpa using h.2.1⟩

/-- C10: the per-type symbol tables map every present key to a non-empty
definition list: addSymbolDefinition preserves the invariant, init
re-establishes it trivially, and under it isSymbolDefined agrees with
getSymbolDefinitions returning a non-empty list. -/
theorem claim_C10_nonempty_tables (d : AWKDocument) (s : String)
    (sd : SymbolDefinition) (t : SymbolType) (h : DefinedSymbolsInv d) :
    DefinedSymbolsInv (d.addSymbolDefinition s sd)
    ∧ DefinedSymbolsInv (AWKDocument.init d)
    ∧ (d.isSymbolDefined s t = true ↔
        ∃ l, d.getSymbolDefinitions s t = some l ∧ l ≠ []) := by
  refine ⟨?_, ?_, ?_⟩
  · intro t' m' hm' s' l' hl'
    simp only [AWKDocument.addSymbolDefinition] at hm'
    by_cases ht : t' = sd.type
    · subst ht
      rw [Function.update_same] at hm'
      obtain rfl : _ = m' := Option.some.inj hm'
      by_cases hs : s' = s
      · subst hs
        rw [Function.update_same] at hl'
        obtain rfl : _ = l' := Option.some.inj hl'
        simp
      · rw [Function.update_noteq hs] at hl'
        split_ifs at hl' with hsome
        · -- map1 = map0: the slot existed (or defaulted); trace back to d
          cases hslot : d.definedSymbols sd.type with
          | none => simp [hslot] at hl'
          | some m0 => exact h sd.type m0 hslot s' l' (by simpa [hslot] using hl')
        · -- map1 = update map0 s (some []); at s' ≠ s this is map0 s'
          rw [Function.update_noteq hs] at hl'
          cases hslot : d.definedSymbols sd.type with
          | none => simp [hslot] at hl'
          | some m0 => exact h sd.type m0 hslot s' l' (by simpa [hslot] using hl')
    · rw [Function.update_noteq ht] at hm'
      exact h t' m' hm' s' l' hl'
  · intro t' m' hm'
    simp [AWKDocument.init] at hm'
  · simp only [AWKDocument.isSymbolDefined, AWKDocument.getSymbolDefinitions]
    cases hslot : d.definedSymbols t with
    | none => simp
    | some m =>
      constructor
      · intro hi
        have hi' : (m s).isSome = true := hi
        obtain ⟨l, hl⟩ := Option.isSome_iff_exists.mp hi'
        exact ⟨l, hl, h t m hslot s l hl⟩
      · rintro ⟨l, hl, _⟩
        have hl' : m s = some l := hl
        show (m s).isSome = true
        simp [hl']

/-- C10 witness: the invariant holds for a freshly created document, is
preserved when f's declaration is added, and the defined-check then agrees
with the non-empty lookup. -/
theorem claim_C10_nonempty_tables_witness :
    DefinedSymbolsInv ((AWKDocument.new "file:///w.awk").addSymbolDefinition "f" dupFnDef)
    ∧ DefinedSymbolsInv (AWKDocument.init (AWKDocument.new "file:///w.awk"))
    ∧ ((AWKDocument.new "file:///w.awk").isSymbolDefined "f" SymbolType.func = true ↔
        ∃ l, (AWKDocument.new "file:///w.awk").getSymbolDefinitions "f" SymbolType.func = some l
          ∧ l ≠ []) :=
  claim_C10_nonempty_tables (AWKDocument.new "file:///w.awk") "f" dupFnDef SymbolType.func
    (by intro t m hm; simp [AWKDocument.new, AWKDocument.init] at hm)

/-- C2: a document declaring a function with exactly the two parameters
[a, b] gets, from checkFunctionCalls, a "not enough arguments" analysis
diagnostic for a recorded call with 1 argument, a "too many arguments"
diagnostic for a call with 3 arguments, and no diagnostic at all for a call
with 2 arguments — for any function name, any callee usage position, and any
document registry. -/
theorem claim_C2_arity_diagnostics (docs : List (String × AWKDocument))
    (fname : String) (q : Pos) :
    (AWKDocument.checkFunctionCalls docs (singleCallDoc fname q 1)).analysisDiagnostics
      = [Diagnostic.create (SymbolUsage.getRange ⟨fname, SymbolType.func, q⟩)
          "not enough arguments"]
    ∧ (AWKDocument.checkFunctionCalls docs (singleCallDoc fname q 3)).analysisDiagnostics
      = [Diagnostic.create (SymbolUsage.getRange ⟨fname, SymbolType.func, q⟩)
          "too many arguments"]
    ∧ (AWKDocument.checkFunctionCalls docs (singleCallDoc fname q 2)).analysisDiagnostics
      = [] := by
  refine ⟨?_, ?_, ?_⟩ <;>
    simp [AWKDocument.checkFunctionCalls, includedClosure, AWKDocument.includesKeys,
      singleCallDoc, AWKDocument.new, AWKDocument.init, AWKDocument.registerNumberOfParameters,
      twoParamFnDef, SymbolDefinition.parameters, SymbolDefinition.symbol, objSet, objHas,
      objGetD, transitiveClosure_nil, mergeIncluded, AWKDocument.resetAnalysisDiagnostics,
      callEvents, replayStep, getNrParametersRange, AWKDocument.checkFunctionExistence,
      AWKDocument.addAnalysisDiagnostic, List.range_succ, maxSafeInteger]

/-- addAnalysisDiagnostic only touches the diagnostics fields. -/
theorem addAnalysisDiagnostic_fields (d : AWKDocument) (dg : Diagnostic) :
    (d.addAnalysisDiagnostic dg).parameterUsage = d.parameterUsage
    ∧ (d.addAnalysisDiagnostic dg).numberOfParameters = d.numberOfParameters
    ∧ (d.addAnalysisDiagnostic dg).definedSymbols = d.definedSymbols
    ∧ (d.addAnalysisDiagnostic dg).analysisDiagnostics = d.analysisDiagnostics ++ [dg] := by
  simp [AWKDocument.addAnalysisDiagnostic]

/-- One merge-entry step either leaves the document untouched or appends one
duplicate-declaration diagnostic to it. -/
theorem mergeFunEntry_snd_cases (st : List (String × Int) × AWKDocument) (fp : String × Int) :
    (mergeFunEntry st fp).2 = st.2
    ∨ ∃ r, (mergeFunEntry st fp).2 = st.2.addAnalysisDiagnostic (Diagnostic.create r dupMsg) := by
  unfold mergeFunEntry
  by_cases h1 : objHas st.1 fp.1
  · by_cases h2 : objHas st.2.numberOfParameters fp.1
    · cases hdefs : st.2.getSymbolDefinitions fp.1 SymbolType.func with
      | none => simp [h1, h2, hdefs]
      | some l =>
        cases l with
        | nil => simp [h1, h2, hdefs]
        | cons fd tl => exact Or.inr ⟨fd.getRange, by simp [h1, h2, hdefs]⟩
    · simp [h1, h2]
  · simp [h1]

/-- Merging never changes the parameter-usage stream, the per-document
function map, or the symbol tables of the threaded document. -/
theorem mergeFunEntry_fold_preserves (entries : List (String × Int)) :
    ∀ st : List (String × Int) × AWKDocument,
      (entries.foldl mergeFunEntry st).2.parameterUsage = st.2.parameterUsage
      ∧ (entries.foldl mergeFunEntry st).2.numberOfParameters = st.2.numberOfParameters
      ∧ (entries.foldl mergeFunEntry st).2.definedSymbols = st.2.definedSymbols := by
  induction entries with
  | nil => intro st; simp
  | cons fp entries ih =>
    intro st
    obtain ⟨i1, i2, i3⟩ := ih (mergeFunEntry st fp)
    have hstep : (mergeFunEntry st fp).2.parameterUsage = st.2.parameterUsage
        ∧ (mergeFunEntry st fp).2.numberOfParameters = st.2.numberOfParameters
        ∧ (mergeFunEntry st fp).2.definedSymbols = st.2.definedSymbols := by
      rcases mergeFunEntry_snd_cases st fp with h | ⟨r, h⟩
      · rw [h]; exact ⟨rfl, rfl, rfl⟩
      · rw [h]
        obtain ⟨f1, f2, f3, _⟩ := addAnalysisDiagnostic_fields st.2 (Diagnostic.create r dupMsg)
        exact ⟨f1, f2, f3⟩
    exact ⟨by rw [List.foldl_cons, i1, hstep.1], by rw [List.foldl_cons, i2, hstep.2.1],
           by rw [List.foldl_cons, i3, hstep.2.2]⟩

theorem mergeIncluded_preserves (docs : List (String × AWKDocument)) (ids : List String) :
    ∀ st : List (String × Int) × AWKDocument,
      (mergeIncluded docs ids st).2.parameterUsage = st.2.parameterUsage
      ∧ (mergeIncluded docs ids st).2.numberOfParameters = st.2.numberOfParameters
      ∧ (mergeIncluded docs ids st).2.definedSymbols = st.2.definedSymbols := by
  induction ids with
  | nil => intro st; simp [mergeIncluded]
  | cons i ids ih =>
    intro st
    have hInner : ∀ st' : List (String × Int) × AWKDocument,
        ((match lookupDoc docs i with
          | none => st'
          | some inclDoc => inclDoc.numberOfParameters.foldl mergeFunEntry st').2.parameterUsage
            = st'.2.parameterUsage)
        ∧ ((match lookupDoc docs i with
          | none => st'
          | some inclDoc => inclDoc.numberOfParameters.foldl mergeFunEntry st').2.numberOfParameters
            = st'.2.numberOfParameters)
        ∧ ((match lookupDoc docs i with
          | none => st'
          | some inclDoc => inclDoc.numberOfParameters.foldl mergeFunEntry st').2.definedSymbols
            = st'.2.definedSymbols) := by
      intro st'
      cases lookupDoc docs i with
      | none => exact ⟨rfl, rfl, rfl⟩
      | some inclDoc => exact mergeFunEntry_fold_preserves inclDoc.numberOfParameters st'
    obtain ⟨a1, a2, a3⟩ := ih ((match lookupDoc docs i with
          | none => st
          | some inclDoc => inclDoc.numberOfParameters.foldl mergeFunEntry st))
    obtain ⟨b1, b2, b3⟩ := hInner st
    simp only [mergeIncluded, List.foldl_cons] at a1 a2 a3 ⊢
    exact ⟨by rw [a1, b1], by rw [a2, b2], by rw [a3, b3]⟩

/-- Diagnostics the merge loop appends all carry the (fixed) duplicate
message, so any filter rejecting that message ignores the merge. -/
theorem mergeFunEntry_fold_filter (p : Diagnostic → Bool)
    (hp : ∀ r, p (Diagnostic.create r dupMsg) = false) (entries : List (String × Int)) :
    ∀ st : List (String × Int) × AWKDocument,
      ((entries.foldl mergeFunEntry st).2.analysisDiagnostics.filter p)
        = st.2.analysisDiagnostics.filter p := by
  induction entries with
  | nil => intro st; simp
  | cons fp entries ih =>
    intro st
    have hstep : ((mergeFunEntry st fp).2.analysisDiagnostics.filter p)
        = st.2.analysisDiagnostics.filter p := by
      rcases mergeFunEntry_snd_cases st fp with h | ⟨r, h⟩
      · rw [h]
      · rw [h, (addAnalysisDiagnostic_fields st.2 (Diagnostic.create r dupMsg)).2.2.2]
        simp [List.filter_append, hp r]
    rw [List.foldl_cons, ih (mergeFunEntry st fp), hstep]

theorem mergeIncluded_filter (p : Diagnostic → Bool)
    (hp : ∀ r, p (Diagnostic.create r dupMsg) = false)
    (docs : List (String × AWKDocument)) (ids : List String) :
    ∀ st : List (String × Int) × AWKDocument,
      ((mergeIncluded docs ids st).2.analysisDiagnostics.filter p)
        = st.2.analysisDiagnostics.filter p := by
  induction ids with
  | nil => intro st; simp [mergeIncluded]
  | cons i ids ih =>
    intro st
    have hInner : ∀ st' : List (String × Int) × AWKDocument,
        ((match lookupDoc docs i with
          | none => st'
          | some inclDoc => inclDoc.numberOfParameters.foldl mergeFunEntry st').2.analysisDiagnostics.filter p)
          = st'.2.analysisDiagnostics.filter p := by
      intro st'
      cases lookupDoc docs i with
      | none => rfl
      | some inclDoc => exact mergeFunEntry_fold_filter p hp inclDoc.numberOfParameters st'
    have a1 := ih ((match lookupDoc docs i with
          | none => st
          | some inclDoc => inclDoc.numberOfParameters.foldl mergeFunEntry st))
    simp only [mergeIncluded, List.foldl_cons] at a1 ⊢
    rw [a1, hInner st]

/-- getSymbolDefinitions only reads the definedSymbols field. -/
theorem getSymbolDefinitions_congr (d1 d2 : AWKDocument)
    (h : d1.definedSymbols = d2.definedSymbols) (s : String) (t : SymbolType) :
    d1.getSymbolDefinitions s t = d2.getSymbolDefinitions s t := by
  unfold AWKDocument.getSymbolDefinitions
  rw [h]

/-- One merge-entry step acts identically on two states that agree on the
combined map, the diagnostics list, the per-document function map and the
symbol tables. -/
theorem mergeFunEntry_pair (st1 st2 : List (String × Int) × AWKDocument) (fp : String × Int)
    (h1 : st1.1 = st2.1)
    (haD : st1.2.analysisDiagnostics = st2.2.analysisDiagnostics)
    (hnp : st1.2.numberOfParameters = st2.2.numberOfParameters)
    (hds : st1.2.definedSymbols = st2.2.definedSymbols) :
    (mergeFunEntry st1 fp).1 = (mergeFunEntry st2 fp).1
    ∧ (mergeFunEntry st1 fp).2.analysisDiagnostics = (mergeFunEntry st2 fp).2.analysisDiagnostics := by
  have hdefs := getSymbolDefinitions_congr st1.2 st2.2 hds fp.1 SymbolType.func
  unfold mergeFunEntry
  by_cases hA : objHas st1.1 fp.1
  · have hA2 : objHas st2.1 fp.1 := h1 ▸ hA
    by_cases hB : objHas st1.2.numberOfParameters fp.1
    · have hB2 : objHas st2.2.numberOfParameters fp.1 := hnp ▸ hB
      cases hd : st1.2.getSymbolDefinitions fp.1 SymbolType.func with
      | none =>
        have hd2 : st2.2.getSymbolDefinitions fp.1 SymbolType.func = none := by
          rw [← hdefs, hd]
        simp [hA, hA2, hB, hB2, hd, hd2, h1, haD]
      | some l =>
        have hd2 : st2.2.getSymbolDefinitions fp.1 SymbolType.func = some l := by
          rw [← hdefs, hd]
        cases l with
        | nil => simp [hA, hA2, hB, hB2, hd, hd2, h1, haD]
        | cons fd tl =>
          simp [hA, hA2, hB, hB2, hd, hd2, h1, haD, AWKDocument.addAnalysisDiagnostic]
    · have hB2 : ¬ objHas st2.2.numberOfParameters fp.1 := hnp ▸ hB
      simp [hA, hA2, hB, hB2, h1, haD]
  · have hA2 : ¬ objHas st2.1 fp.1 := h1 ▸ hA
    simp [hA, hA2, h1, haD]

/-- Merging from two such states yields the same combined map and the same
diagnostics list. -/
theorem mergeFunEntry_fold_pair (entries : List (String × Int)) :
    ∀ st1 st2 : List (String × Int) × AWKDocument,
      st1.1 = st2.1 →
      st1.2.analysisDiagnostics = st2.2.analysisDiagnostics →
      st1.2.numberOfParameters = st2.2.numberOfParameters →
      st1.2.definedSymbols = st2.2.definedSymbols →
      (entries.foldl mergeFunEntry st1).1 = (entries.foldl mergeFunEntry st2).1
      ∧ (entries.foldl mergeFunEntry st1).2.analysisDiagnostics
          = (entries.foldl mergeFunEntry st2).2.analysisDiagnostics := by
  induction entries with
  | nil => intro st1 st2 h1 haD _ _; exact ⟨h1, haD⟩
  | cons fp entries ih =>
    intro st1 st2 h1 haD hnp hds
    obtain ⟨p1, p2⟩ := mergeFunEntry_pair st1 st2 fp h1 haD hnp hds
    have q1 : (mergeFunEntry st1 fp).2.numberOfParameters
        = (mergeFunEntry st2 fp).2.numberOfParameters := by
      rcases mergeFunEntry_snd_cases st1 fp with ha | ⟨r, ha⟩ <;>
        rcases mergeFunEntry_snd_cases st2 fp with hb | ⟨r2, hb⟩ <;>
        rw [ha, hb] <;>
        simp [AWKDocument.addAnalysisDiagnostic, hnp]
    have q2 : (mergeFunEntry st1 fp).2.definedSymbols
        = (mergeFunEntry st2 fp).2.definedSymbols := by
      rcases mergeFunEntry_snd_cases st1 fp with ha | ⟨r, ha⟩ <;>
        rcases mergeFunEntry_snd_cases st2 fp with hb | ⟨r2, hb⟩ <;>
        rw [ha, hb] <;>
        simp [AWKDocument.addAnalysisDiagnostic, hds]
    simpa only [List.foldl_cons] using
      ih (mergeFunEntry st1 fp) (mergeFunEntry st2 fp) p1 p2 q1 q2

theorem mergeIncluded_pair (docs : List (String × AWKDocument)) (ids : List String) :
    ∀ st1 st2 : List (String × Int) × AWKDocument,
      st1.1 = st2.1 →
      st1.2.analysisDiagnostics = st2.2.analysisDiagnostics →
      st1.2.numberOfParameters = st2.2.numberOfParameters →
      st1.2.definedSymbols = st2.2.definedSymbols →
      (mergeIncluded docs ids st1).1 = (mergeIncluded docs ids st2).1
      ∧ (mergeIncluded docs ids st1).2.analysisDiagnostics
          = (mergeIncluded docs ids st2).2.analysisDiagnostics := by
  induction ids with
  | nil => intro st1 st2 h1 haD _ _; exact ⟨h1, haD⟩
  | cons i ids ih =>
    intro st1 st2 h1 haD hnp hds
    have hInner :
        (match lookupDoc docs i with
         | none => st1
         | some inclDoc => inclDoc.numberOfParameters.foldl mergeFunEntry st1).1
          = (match lookupDoc docs i with
             | none => st2
             | some inclDoc => inclDoc.numberOfParameters.foldl mergeFunEntry st2).1
        ∧ (match lookupDoc docs i with
           | none => st1
           | some inclDoc => inclDoc.numberOfParameters.foldl mergeFunEntry st1).2.analysisDiagnostics
          = (match lookupDoc docs i with
             | none => st2
             | some inclDoc => inclDoc.numberOfParameters.foldl mergeFunEntry st2).2.analysisDiagnostics
        ∧ (match lookupDoc docs i with
           | none => st1
           | some inclDoc => inclDoc.numberOfParameters.foldl mergeFunEntry st1).2.numberOfParameters
          = (match lookupDoc docs i with
             | none => st2
             | some inclDoc => inclDoc.numberOfParameters.foldl mergeFunEntry st2).2.numberOfParameters
        ∧ (match lookupDoc docs i with
           | none => st1
           | some inclDoc => inclDoc.numberOfParameters.foldl mergeFunEntry st1).2.definedSymbols
          = (match lookupDoc docs i with
             | none => st2
             | some inclDoc => inclDoc.numberOfParameters.foldl mergeFunEntry st2).2.definedSymbols := by
      cases lookupDoc docs i with
      | none => exact ⟨h1, haD, hnp, hds⟩
      | some inclDoc =>
        obtain ⟨w1, w2⟩ := mergeFunEntry_fold_pair inclDoc.numberOfParameters st1 st2 h1 haD hnp hds
        obtain ⟨v1, v2, v3⟩ := mergeFunEntry_fold_preserves inclDoc.numberOfParameters st1
        obtain ⟨u1, u2, u3⟩ := mergeFunEntry_fold_preserves inclDoc.numberOfParameters st2
        exact ⟨w1, w2, by rw [v2, u2, hnp], by rw [v3, u3, hds]⟩
    obtain ⟨w1, w2, w3, w4⟩ := hInner
    simpa only [mergeIncluded, List.foldl_cons] using
      ih _ _ w1 w2 w3 w4

/-- One replay step appends an "undeclared function" diagnostic exactly at an
undeclared call-opening boundary; arity diagnostics carry other messages and
are invisible to the isUndeclMsg filter. -/
theorem replayStep_filter (nop : List (String × Int))
    (st : List (Int × Int) × List Int × AWKDocument) (e : ParameterUsage) :
    ((replayStep nop st e).2.2).analysisDiagnostics.filter isUndeclMsg
    = st.2.2.analysisDiagnostics.filter isUndeclMsg
      ++ (if isUndeclaredOpening nop e then [undeclDiag e] else []) := by
  obtain ⟨rs, cs, d⟩ := st
  obtain ⟨fn, idx, pos, bstart⟩ := e
  cases bstart with
  | true =>
    by_cases hidx : idx ≤ 0
    · by_cases hu : ¬ objHas nop fn.symbol = true ∧ ¬ builtInHas fn.symbol = true
      · have hu1 : objHas nop fn.symbol = false := by simpa using hu.1
        have hu2 : builtInHas fn.symbol = false := by simpa using hu.2
        have hopen : isUndeclaredOpening nop ⟨fn, idx, pos, true⟩ = true := by
          simp [isUndeclaredOpening, hidx, hu1, hu2]
        simp [replayStep, hidx, hu, AWKDocument.checkFunctionExistence,
          AWKDocument.addAnalysisDiagnostic, hopen, undeclDiag,
          List.filter_append, isUndeclMsg, Diagnostic.create]
      · have hopen : isUndeclaredOpening nop ⟨fn, idx, pos, true⟩ = false := by
          simp only [isUndeclaredOpening, Bool.and_eq_true, Bool.not_eq_true',
            decide_eq_true_eq, Bool.and_eq_false_iff]
          rcases not_and_or.mp hu with h | h
          · simp only [not_not] at h
            simp [h]
          · simp only [not_not] at h
            simp [h]
        have hcond : ¬ (objHas nop fn.symbol = false ∧ builtInHas fn.symbol = false) := by
          rintro ⟨ha, hb⟩
          exact hu ⟨by simp [ha], by simp [hb]⟩
        simp [replayStep, hidx, AWKDocument.checkFunctionExistence, hcond, hopen]
    · have hopen : isUndeclaredOpening nop ⟨fn, idx, pos, true⟩ = false := by
        simp [isUndeclaredOpening, hidx]
      simp [replayStep, hidx, hopen]
  | false =>
    by_cases hidx : idx = -1
    · subst hidx
      have hopen : isUndeclaredOpening nop ⟨fn, -1, pos, false⟩ = false := by
        simp [isUndeclaredOpening]
      cases rs with
      | nil => simp [replayStep, hopen]
      | cons r rs =>
        obtain ⟨mn, mx⟩ := r
        cases cs with
        | nil => simp [replayStep, hopen]
        | cons n cs =>
          by_cases hlt : n < mn
          · simp [replayStep, hopen, hlt, AWKDocument.addAnalysisDiagnostic,
              List.filter_append, isUndeclMsg, Diagnostic.create]
          · by_cases hgt : n > mx
            · simp [replayStep, hopen, hlt, hgt, AWKDocument.addAnalysisDiagnostic,
                List.filter_append, isUndeclMsg, Diagnostic.create]
            · simp [replayStep, hopen, hlt, hgt]
    · have hopen : isUndeclaredOpening nop ⟨fn, idx, pos, false⟩ = false := by
        simp [isUndeclaredOpening]
      simp [replayStep, hidx, hopen]

theorem replay_fold_filter (nop : List (String × Int)) (events : List ParameterUsage) :
    ∀ st : List (Int × Int) × List Int × AWKDocument,
      ((events.foldl (replayStep nop) st).2.2).analysisDiagnostics.filter isUndeclMsg
      = st.2.2.analysisDiagnostics.filter isUndeclMsg
        ++ (events.filter (isUndeclaredOpening nop)).map undeclDiag := by
  induction events with
  | nil => intro st; simp
  | cons e events ih =>
    intro st
    rw [List.foldl_cons, ih (replayStep nop st e), replayStep_filter nop st e]
    by_cases he : isUndeclaredOpening nop e = true
    · simp [List.filter_cons, he]
    · simp [List.filter_cons, he]

/-- The replay loop's decisions read only the stacks, the combined map and
the event; the document is a pure diagnostics accumulator, so two runs from
equal stacks and equal diagnostics lists stay in lock step. -/
theorem replayStep_pair (nop : List (String × Int))
    (st1 st2 : List (Int × Int) × List Int × AWKDocument) (e : ParameterUsage)
    (hrs : st1.1 = st2.1) (hcs : st1.2.1 = st2.2.1)
    (haD : st1.2.2.analysisDiagnostics = st2.2.2.analysisDiagnostics) :
    (replayStep nop st1 e).1 = (replayStep nop st2 e).1
    ∧ (replayStep nop st1 e).2.1 = (replayStep nop st2 e).2.1
    ∧ (replayStep nop st1 e).2.2.analysisDiagnostics
        = (replayStep nop st2 e).2.2.analysisDiagnostics := by
  obtain ⟨rs1, cs1, d1⟩ := st1
  obtain ⟨rs2, cs2, d2⟩ := st2
  simp only at hrs hcs haD
  subst hrs
  subst hcs
  obtain ⟨fn, idx, pos, bstart⟩ := e
  cases bstart with
  | true =>
    by_cases hidx : idx ≤ 0
    · by_cases hcond : ¬ objHas nop fn.symbol = true ∧ ¬ builtInHas fn.symbol = true
      · simp [replayStep, hidx, hcond, AWKDocument.checkFunctionExistence,
          AWKDocument.addAnalysisDiagnostic, haD]
      · have hc : ¬ (objHas nop fn.symbol = false ∧ builtInHas fn.symbol = false) := by
          rintro ⟨ha, hb⟩
          exact hcond ⟨by simp [ha], by simp [hb]⟩
        simp [replayStep, hidx, AWKDocument.checkFunctionExistence, hc, haD]
    · simp [replayStep, hidx, haD]
  | false =>
    by_cases hidx : idx = -1
    · subst hidx
      cases rs1 with
      | nil => simp [replayStep, haD]
      | cons r rs =>
        obtain ⟨mn, mx⟩ := r
        cases cs1 with
        | nil => simp [replayStep, haD]
        | cons n cs =>
          by_cases hlt : n < mn
          · simp [replayStep, hlt, AWKDocument.addAnalysisDiagnostic, haD]
          · by_cases hgt : n > mx
            · simp [replayStep, hlt, hgt, AWKDocument.addAnalysisDiagnostic, haD]
            · simp [replayStep, hlt, hgt, haD]
    · simp [replayStep, hidx, haD]

theorem replay_fold_pair (nop : List (String × Int)) (events : List ParameterUsage) :
    ∀ st1 st2 : List (Int × Int) × List Int × AWKDocument,
      st1.1 = st2.1 → st1.2.1 = st2.2.1 →
      st1.2.2.analysisDiagnostics = st2.2.2.analysisDiagnostics →
      ((events.foldl (replayStep nop) st1).2.2).analysisDiagnostics
        = ((events.foldl (replayStep nop) st2).2.2).analysisDiagnostics := by
  induction events with
  | nil => intro st1 st2 _ _ haD; exact haD
  | cons e events ih =>
    intro st1 st2 hrs hcs haD
    obtain ⟨p1, p2, p3⟩ := replayStep_pair nop st1 st2 e hrs hcs haD
    simpa only [List.foldl_cons] using ih (replayStep nop st1 e) (replayStep nop st2 e) p1 p2 p3

/-- C3: for every document and registry, the "undeclared function" analysis
diagnostics checkFunctionCalls emits correspond one-to-one (in order, each at
its callee's own range) to the recorded call-opening boundaries whose callee
is neither in the combined (transitively merged) function map nor a built-in:
exactly one per call site, regardless of the call's argument count. -/
theorem claim_C3_undeclared_once_per_call (docs : List (String × AWKDocument))
    (doc : AWKDocument) :
    ((AWKDocument.checkFunctionCalls docs doc).analysisDiagnostics.filter isUndeclMsg)
    = (doc.parameterUsage.filter (isUndeclaredOpening (availableFunctions docs doc))).map
        undeclDiag := by
  have hp : ∀ r, isUndeclMsg (Diagnostic.create r dupMsg) = false := fun r => rfl
  have hreset : (doc.resetAnalysisDiagnostics).analysisDiagnostics = [] := by
    simp [AWKDocument.resetAnalysisDiagnostics]
  have hresetpu : (doc.resetAnalysisDiagnostics).parameterUsage = doc.parameterUsage := by
    simp [AWKDocument.resetAnalysisDiagnostics]
  have hfilt := mergeIncluded_filter isUndeclMsg hp docs (includedClosure docs doc)
      (doc.numberOfParameters, doc.resetAnalysisDiagnostics)
  have hpres := mergeIncluded_preserves docs (includedClosure docs doc)
      (doc.numberOfParameters, doc.resetAnalysisDiagnostics)
  set M := mergeIncluded docs (includedClosure docs doc)
      (doc.numberOfParameters, doc.resetAnalysisDiagnostics) with hM
  have hMfil : M.2.analysisDiagnostics.filter isUndeclMsg = [] := by
    rw [hfilt, hreset]
    rfl
  have hMpu : M.2.parameterUsage = doc.parameterUsage := by
    rw [hpres.1, hresetpu]
  have hMav : M.1 = availableFunctions docs doc := rfl
  show (if M.2.parameterUsage = [] then M.2
        else (M.2.parameterUsage.foldl (replayStep M.1) ([], [], M.2)).2.2).analysisDiagnostics.filter
          isUndeclMsg = _
  by_cases hemp : M.2.parameterUsage = []
  · rw [if_pos hemp, hMfil, ← hMpu, hemp]
    simp
  · rw [if_neg hemp, replay_fold_filter M.1 M.2.parameterUsage ([], [], M.2), hMfil, hMpu, hMav]
    simp

/-- C8 counterexample: a document with no recorded parameter-usage events at
all still receives an analysis diagnostic from checkFunctionCalls (the
duplicate-declaration diagnostic of the include merge, which runs before the
empty-stream early return), refuting "adds no analysis diagnostics at all". -/
theorem claim_C8_counterexample :
    noCallsDocA.parameterUsage = []
    ∧ (AWKDocument.checkFunctionCalls noCallsRegistry noCallsDocA).analysisDiagnostics
        = [Diagnostic.create dupFnDef.getRange dupMsg] :=
  ⟨rfl, by decide⟩

/-- C8 amended: checkFunctionCalls always begins by clearing the analysis
diagnostics (its result does not depend on the prior analysis-diagnostics
list), and when the document recorded no parameter-usage events it skips the
call replay, so every analysis diagnostic it can still produce is a
duplicate-declaration diagnostic from the include merge — no existence or
arity diagnostics are added. -/
theorem claim_C8_amended (docs : List (String × AWKDocument)) (d : AWKDocument)
    (l l' : List Diagnostic) :
    ((AWKDocument.checkFunctionCalls docs { d with analysisDiagnostics := l }).analysisDiagnostics
      = (AWKDocument.checkFunctionCalls docs { d with analysisDiagnostics := l' }).analysisDiagnostics)
    ∧ (d.parameterUsage = [] →
        ∀ dg ∈ (AWKDocument.checkFunctionCalls docs d).analysisDiagnostics,
          dg.message = dupMsg) := by
  constructor
  · suffices h : ∀ x : List Diagnostic,
        (AWKDocument.checkFunctionCalls docs { d with analysisDiagnostics := x }).analysisDiagnostics
        = (AWKDocument.checkFunctionCalls docs { d with analysisDiagnostics := [] }).analysisDiagnostics by
      rw [h l, h l']
    intro x
    set dx : AWKDocument := { d with analysisDiagnostics := x } with hdx
    set d0 : AWKDocument := { d with analysisDiagnostics := [] } with hd0
    have hids : includedClosure docs dx = includedClosure docs d0 := rfl
    have hpair := mergeIncluded_pair docs (includedClosure docs dx)
      (dx.numberOfParameters, dx.resetAnalysisDiagnostics)
      (d0.numberOfParameters, d0.resetAnalysisDiagnostics)
      rfl rfl rfl rfl
    have hpres1 := mergeIncluded_preserves docs (includedClosure docs dx)
      (dx.numberOfParameters, dx.resetAnalysisDiagnostics)
    have hpres0 := mergeIncluded_preserves docs (includedClosure docs dx)
      (d0.numberOfParameters, d0.resetAnalysisDiagnostics)
    set M1 := mergeIncluded docs (includedClosure docs dx)
      (dx.numberOfParameters, dx.resetAnalysisDiagnostics) with hM1
    set M0 := mergeIncluded docs (includedClosure docs dx)
      (d0.numberOfParameters, d0.resetAnalysisDiagnostics) with hM0
    have hpu1 : M1.2.parameterUsage = d.parameterUsage := by
      rw [hpres1.1]
      rfl
    have hpu0 : M0.2.parameterUsage = d.parameterUsage := by
      rw [hpres0.1]
      rfl
    show (if M1.2.parameterUsage = [] then M1.2
          else (M1.2.parameterUsage.foldl (replayStep M1.1) ([], [], M1.2)).2.2).analysisDiagnostics
        = (if M0.2.parameterUsage = [] then M0.2
          else (M0.2.parameterUsage.foldl (replayStep M0.1) ([], [], M0.2)).2.2).analysisDiagnostics
    by_cases hemp : d.parameterUsage = []
    · rw [if_pos (hpu1.trans hemp), if_pos (hpu0.trans hemp)]
      exact hpair.2
    · rw [if_neg (fun hc => hemp (hpu1 ▸ hc)), if_neg (fun hc => hemp (hpu0 ▸ hc))]
      rw [hpu1, hpu0, hpair.1]
      exact replay_fold_pair M0.1 d.parameterUsage ([], [], M1.2) ([], [], M0.2)
        rfl rfl hpair.2
  · intro hpu dg hdg
    have hpres := mergeIncluded_preserves docs (includedClosure docs d)
      (d.numberOfParameters, d.resetAnalysisDiagnostics)
    set M := mergeIncluded docs (includedClosure docs d)
      (d.numberOfParameters, d.resetAnalysisDiagnostics) with hM
    have hMpu : M.2.parameterUsage = [] := by
      rw [hpres.1]
      simpa [AWKDocument.resetAnalysisDiagnostics] using hpu
    have hdg' : dg ∈ M.2.analysisDiagnostics := by
      revert hdg
      show dg ∈ (if M.2.parameterUsage = [] then M.2
          else (M.2.parameterUsage.foldl (replayStep M.1) ([], [], M.2)).2.2).analysisDiagnostics → _
      rw [if_pos hMpu]
      exact id
    by_contra hne
    have hp : ∀ r, (fun x : Diagnostic => !(x.message == dupMsg)) (Diagnostic.create r dupMsg)
        = false := fun r => by simp [Diagnostic.create]
    have hfilt := mergeIncluded_filter (fun x : Diagnostic => !(x.message == dupMsg)) hp docs
      (includedClosure docs d) (d.numberOfParameters, d.resetAnalysisDiagnostics)
    have hempty : M.2.analysisDiagnostics.filter (fun x : Diagnostic => !(x.message == dupMsg))
        = [] := by
      rw [hfilt]
      simp [AWKDocument.resetAnalysisDiagnostics]
    have : dg ∈ M.2.analysisDiagnostics.filter (fun x : Diagnostic => !(x.message == dupMsg)) :=
      List.mem_filter.mpr ⟨hdg', by simp [hne]⟩
    rw [hempty] at this
    exact absurd this (List.not_mem_nil dg)

theorem cmp_abc (qc : Int) : compareUsagePos usageAbc ⟨4, qc⟩
    = (if 13 < qc then -1 else if qc < 10 then 1 else 0) := by
  have l3 : ("abc" : String).length = 3 := rfl
  simp [compareUsagePos, usageAbc, l3]

theorem cmp_zero (qc : Int) : compareUsagePos usageZero ⟨4, qc⟩
    = (if qc = 5 then 0 else if 5 < qc then -1 else 1) := by
  have l0 : ("" : String).length = 0 := rfl
  simp [compareUsagePos, usageZero, l0]
  omega

theorem cmp_xy (qc : Int) : compareUsagePos usageXy ⟨4, qc⟩
    = (if 22 < qc then -1 else if qc < 20 then 1 else 0) := by
  have l2 : ("xy" : String).length = 2 := rfl
  simp [compareUsagePos, usageXy, l2]

/-- C4 amended: the position-to-usage binary search treats a usage's span as
the CLOSED interval [start, start + length]: on a position-ordered list with
a zero-length usage at (4,5), the 3-character identifier at (4,10) and a
2-character usage at (4,20), a query at line 4 returns the zero-length usage
only at exactly column 5, the identifier for any column in [10, 13] (13
included — this is the one point where the original half-open claim fails),
the next usage for columns in [20, 22], and nothing otherwise. -/
theorem claim_C4_closed_interval (qc : Int) :
    binsearch lookupUsages ⟨4, qc⟩
    = (if qc = 5 then some usageZero
       else if 10 ≤ qc ∧ qc ≤ 13 then some usageAbc
       else if 20 ≤ qc ∧ qc ≤ 22 then some usageXy
       else none) := by
  show binsearchGo lookupUsages ⟨4, qc⟩ 4 0 2 = _
  simp only [binsearchGo, lookupUsages, cmp_abc, cmp_zero, cmp_xy]
  norm_num
  have h2 : Int.toNat 2 = 2 := rfl
  simp only [h2, List.getElem_cons_succ, List.getElem_cons_zero, cmp_abc, cmp_zero, cmp_xy]
  split_ifs <;> first | rfl | omega | (exfalso; omega) | simp_all

/-- C8 amended-claim witness: the concrete no-calls document with a duplicate
declaration has an empty event stream, and every analysis diagnostic its
checkFunctionCalls run produces is a duplicate-declaration diagnostic. -/
theorem claim_C8_amended_witness :
    noCallsDocA.parameterUsage = []
    ∧ ∀ dg ∈ (AWKDocument.checkFunctionCalls noCallsRegistry noCallsDocA).analysisDiagnostics,
        dg.message = dupMsg :=
  ⟨rfl, (claim_C8_amended noCallsRegistry noCallsDocA [] []).2 rfl⟩
